import Mathlib

/-!
Verification of the WBR (weekly business review) temporal aggregation core.

The development shallowly embeds the core computations of the repository:
calendar arithmetic (`datetime.date` / `pandas.Timestamp`), the trailing
weekly window builder (`create_trailing_six_weeks`), the monthly Jan..Dec
window and partial-month detection (`processar_dados_wbr`), the metric
registry (`add_product_metric`, `add_diff_metric`, `add_div_metric`,
`add_custom_metric`, `_safe_divide`), the WoW/YoY comparison functions
(`compute_wow`, `_compute_wow_single`, `compute_yoy_last_week`) and the two
KPI entry points (`calcular_kpis` in `src/wbr/kpis.py` and its compatibility
replacement in `wbr_metrics.py`).

Numeric modelling: metric values are rationals (`ℚ`); a pandas cell that can
be NaN/NA is modelled as `Option ℚ` where `none` is the undefined value;
where IEEE infinities matter (numpy division) a dedicated `PVal` type with
`nan`/`inf`/`ninf` constructors is used.  Dates are modelled either as civil
calendar triples (`Date`) or as day numbers (days since 1970-01-01, `Int`),
with executable conversions in both directions mirroring the Gregorian
calendar that `datetime` implements.  Column names are modelled as atoms
(`Nat`).
-/

/-- Civil (proleptic Gregorian) calendar date, the model of `datetime.date`
and of a normalized `pandas.Timestamp`. -/
structure Date where
  year : Int
  month : Nat
  day : Nat
deriving DecidableEq, Repr

/-- Gregorian leap-year rule, as implemented by `calendar.isleap` /
`datetime`. -/
def isLeapYear (y : Int) : Bool :=
  (y % 4 == 0 && y % 100 != 0) || (y % 400 == 0)

/-- Number of days of month `m` of year `y` (`calendar.monthrange`). -/
def daysInMonth (y : Int) (m : Nat) : Nat :=
  if m = 2 then (if isLeapYear y then 29 else 28)
  else if m = 4 ∨ m = 6 ∨ m = 9 ∨ m = 11 then 30
  else 31

/-- Validity of a civil date (what `datetime.date(y, m, d)` accepts). -/
def Date.valid (d : Date) : Prop :=
  1 ≤ d.month ∧ d.month ≤ 12 ∧ 1 ≤ d.day ∧ d.day ≤ daysInMonth d.year d.month

instance (d : Date) : Decidable d.valid := by
  unfold Date.valid; infer_instance

/-- Lexicographic order on dates (`Timestamp` comparison), as a Boolean. -/
def dle (a b : Date) : Bool :=
  a.year < b.year ||
    (a.year == b.year &&
      (a.month < b.month || (a.month == b.month && a.day ≤ b.day)))

/-- Strict lexicographic order on dates, as a Boolean. -/
def dlt (a b : Date) : Bool :=
  a.year < b.year ||
    (a.year == b.year &&
      (a.month < b.month || (a.month == b.month && a.day < b.day)))

/-- Day number (days since 1970-01-01) of a civil date; the standard
days-from-civil algorithm used by calendar libraries, embedding the ordinal
arithmetic of `datetime.date`/`timedelta`. -/
def daysFromCivil (y : Int) (m : Nat) (d : Nat) : Int :=
  let yAdj : Int := if m ≤ 2 then y - 1 else y
  let era : Int := (if 0 ≤ yAdj then yAdj else yAdj - 399) / 400
  let yoe : Nat := (yAdj - era * 400).toNat
  let mp : Nat := (m + 9) % 12
  let doy : Nat := (153 * mp + 2) / 5 + d - 1
  let doe : Nat := yoe * 365 + yoe / 4 - yoe / 100 + doy
  era * 146097 + (doe : Int) - 719468

/-- Day number of a `Date`. -/
def Date.toDay (dt : Date) : Int := daysFromCivil dt.year dt.month dt.day

/-- Civil date of a day number (inverse of `daysFromCivil`). -/
def civilFromDays (z0 : Int) : Date :=
  let z : Int := z0 + 719468
  let era : Int := (if 0 ≤ z then z else z - 146096) / 146097
  let doe : Nat := (z - era * 146097).toNat
  let yoe : Nat := (doe - doe / 1460 + doe / 36524 - doe / 146096) / 365
  let y : Int := (yoe : Int) + era * 400
  let doy : Nat := doe - (365 * yoe + yoe / 4 - yoe / 100)
  let mp : Nat := (5 * doy + 2) / 153
  let d : Nat := doy - (153 * mp + 2) / 5 + 1
  let m : Nat := if mp < 10 then mp + 3 else mp - 9
  ⟨if m ≤ 2 then y + 1 else y, m, d⟩

/-- ISO weekday (1 = Monday .. 7 = Sunday) of a day number; day 0
(1970-01-01) is a Thursday. -/
def isoWeekdayOfDay (z : Int) : Int := (z + 3) % 7 + 1

/-- The Sunday on or after a day number: the `end_time` of the
`to_period('W-SUN')` weekly period (weeks run Monday..Sunday). -/
def sundayOnOrAfter (z : Int) : Int := z + (7 - isoWeekdayOfDay z)

/-!
Pandas/numpy cell values for the derived-metric columns.  numpy float
semantics: division by zero of a nonzero numerator yields a signed infinity
(a `RuntimeWarning`, suppressed by `_safe_divide`), `0/0` yields NaN, and
NaN propagates through arithmetic.
-/

/-- A pandas float cell: a finite rational, NaN, or a signed infinity. -/
inductive PVal where
  | num (q : ℚ)
  | nan
  | inf
  | ninf
deriving DecidableEq, Repr

/-- numpy float division of two cells. -/
def PVal.div : PVal → PVal → PVal
  | .nan, _ => .nan
  | _, .nan => .nan
  | .num a, .num b =>
      if b ≠ 0 then .num (a / b)
      else if 0 < a then .inf
      else if a < 0 then .ninf
      else .nan
  | .num _, .inf => .num 0
  | .num _, .ninf => .num 0
  | .inf, .num b => if 0 ≤ b then .inf else .ninf
  | .ninf, .num b => if 0 ≤ b then .ninf else .inf
  | .inf, .inf => .nan
  | .inf, .ninf => .nan
  | .ninf, .inf => .nan
  | .ninf, .ninf => .nan

/-- numpy float multiplication of two cells. -/
def PVal.mul : PVal → PVal → PVal
  | .nan, _ => .nan
  | _, .nan => .nan
  | .num a, .num b => .num (a * b)
  | .num a, .inf => if 0 < a then .inf else if a < 0 then .ninf else .nan
  | .num a, .ninf => if 0 < a then .ninf else if a < 0 then .inf else .nan
  | .inf, .num b => if 0 < b then .inf else if b < 0 then .ninf else .nan
  | .ninf, .num b => if 0 < b then .ninf else if b < 0 then .inf else .nan
  | .inf, .inf => .inf
  | .inf, .ninf => .ninf
  | .ninf, .inf => .ninf
  | .ninf, .ninf => .inf

/-- numpy float subtraction of two cells. -/
def PVal.sub : PVal → PVal → PVal
  | .nan, _ => .nan
  | _, .nan => .nan
  | .num a, .num b => .num (a - b)
  | .num _, .inf => .ninf
  | .num _, .ninf => .inf
  | .inf, .num _ => .inf
  | .ninf, .num _ => .ninf
  | .inf, .inf => .nan
  | .inf, .ninf => .inf
  | .ninf, .inf => .ninf
  | .ninf, .ninf => .nan

/-- `Series.fillna(0)` on one cell: only NaN is replaced, infinities are
kept. -/
def PVal.fillnaZero : PVal → PVal
  | .nan => .num 0
  | v => v

/-- `Series.replace([np.inf, -np.inf], np.nan)` on one cell. -/
def PVal.replaceInfNan : PVal → PVal
  | .inf => .nan
  | .ninf => .nan
  | v => v

/-- The `handle_zero` argument of `add_div_metric`; `other` stands for any
string besides the three recognized options. -/
inductive HandleZero where
  | hznan
  | hzzero
  | hzinf
  | other
deriving DecidableEq, Repr

/-- Python exceptions that the embedded code can raise. -/
inductive PyErr where
  | valueError
  | keyError
  | indexError
deriving DecidableEq, Repr

/-- `WBRCalculator._safe_divide(numerator, denominator, handle_zero)`
(wbr_metrics.py lines 631-649): elementwise division with the stated
zero-handling option; an unrecognized option raises `ValueError`. -/
def safe_divide (numerator denominator : List PVal) (handle_zero : HandleZero) :
    Except PyErr (List PVal) :=
  match handle_zero with
  | .hznan => .ok (List.zipWith PVal.div numerator denominator)
  | .hzzero => .ok ((List.zipWith PVal.div numerator denominator).map PVal.fillnaZero)
  | .hzinf => .ok ((List.zipWith PVal.div numerator denominator).map PVal.replaceInfNan)
  | .other => .error .valueError

/-!
Metric Definition Registry (`WBRCalculator`, wbr_metrics.py lines 203-325).
Column names are atoms (`Nat`); `metric_definitions` is a Python dict,
modelled as an association list where assignment overwrites in place.
-/

/-- The formula field of a `MetricDefinition`. -/
inductive Formula where
  | product (a b : Nat)
  | difference (a b : Nat)
  | ratio (n d : Nat)
  | custom
deriving DecidableEq, Repr

/-- The `metric_type` field of a `MetricDefinition`. -/
inductive MetricType where
  | value
  | ratio
  | count
deriving DecidableEq, Repr

/-- `MetricDefinition` (wbr_metrics.py lines 37-47). -/
structure MetricDefinition where
  formula : Formula
  metric_type : MetricType
  dependencies : List Nat
deriving DecidableEq, Repr

/-- Python dict lookup on an association list. -/
def dictGet (m : List (Nat × α)) (k : Nat) : Option α :=
  (m.find? (fun p => p.1 == k)).map (·.2)

/-- Python dict assignment `m[k] = v`: overwrite in place if present,
append otherwise. -/
def dictSet (k : Nat) (v : α) : List (Nat × α) → List (Nat × α)
  | [] => [(k, v)]
  | p :: rest => if p.1 == k then (k, v) :: rest else p :: dictSet k v rest

/-- The mutable state of a `WBRCalculator` that metric registration touches:
the CY/PY trailing windows (metric columns only) and the derived-metric
frames, plus the `metric_definitions` registry. -/
structure CalcState where
  cyCols : List (Nat × List PVal)
  pyCols : List (Nat × List PVal)
  derivedCy : List (Nat × List PVal)
  derivedPy : List (Nat × List PVal)
  metric_definitions : List (Nat × MetricDefinition)
deriving Repr

/-- `WBRCalculator._validate_columns_exist` (lines 593-598): every requested
column must be a base-window column or an already-derived column; note that
the metric's own `name` is never checked. -/
def validate_columns_exist (st : CalcState) (cols : List Nat) : Bool :=
  cols.all (fun c =>
    (st.cyCols.map (·.1)).contains c || (st.derivedCy.map (·.1)).contains c)

/-- `WBRCalculator._get_column(df, col)` (lines 600-607) for the CY side. -/
def get_column_cy (st : CalcState) (c : Nat) : List PVal :=
  match dictGet st.cyCols c with
  | some v => v
  | none => (dictGet st.derivedCy c).getD []

/-- `WBRCalculator._get_column(df, col)` for the PY side. -/
def get_column_py (st : CalcState) (c : Nat) : List PVal :=
  match dictGet st.pyCols c with
  | some v => v
  | none => (dictGet st.derivedPy c).getD []

/-- `WBRCalculator.add_product_metric(name, col_a, col_b)` (lines 203-233):
validates the two dependency columns (raising `ValueError` when missing),
stores the definition under `name`, and materializes the derived column on
both windows.  There is no check on `name` itself. -/
def add_product_metric (st : CalcState) (name col_a col_b : Nat) :
    Except PyErr CalcState :=
  if ¬ validate_columns_exist st [col_a, col_b] then .error .valueError
  else
    .ok { st with
      metric_definitions := dictSet name
        ⟨.product col_a col_b, .value, [col_a, col_b]⟩ st.metric_definitions
      derivedCy := dictSet name
        (List.zipWith PVal.mul (get_column_cy st col_a) (get_column_cy st col_b))
        st.derivedCy
      derivedPy := dictSet name
        (List.zipWith PVal.mul (get_column_py st col_a) (get_column_py st col_b))
        st.derivedPy }

/-- `WBRCalculator.add_diff_metric(name, col_a, col_b)` (lines 235-263). -/
def add_diff_metric (st : CalcState) (name col_a col_b : Nat) :
    Except PyErr CalcState :=
  if ¬ validate_columns_exist st [col_a, col_b] then .error .valueError
  else
    .ok { st with
      metric_definitions := dictSet name
        ⟨.difference col_a col_b, .value, [col_a, col_b]⟩ st.metric_definitions
      derivedCy := dictSet name
        (List.zipWith PVal.sub (get_column_cy st col_a) (get_column_cy st col_b))
        st.derivedCy
      derivedPy := dictSet name
        (List.zipWith PVal.sub (get_column_py st col_a) (get_column_py st col_b))
        st.derivedPy }

/-- `WBRCalculator.add_div_metric(name, numerator, denominator, handle_zero)`
(lines 265-296): validates dependencies, stores the definition, divides via
`_safe_divide` on both windows. -/
def add_div_metric (st : CalcState) (name numerator denominator : Nat)
    (handle_zero : HandleZero) : Except PyErr CalcState :=
  if ¬ validate_columns_exist st [numerator, denominator] then .error .valueError
  else
    match safe_divide (get_column_cy st numerator) (get_column_cy st denominator)
        handle_zero,
      safe_divide (get_column_py st numerator) (get_column_py st denominator)
        handle_zero with
    | .ok cy, .ok py =>
      .ok { st with
        metric_definitions := dictSet name
          ⟨.ratio numerator denominator, .ratio, [numerator, denominator]⟩
          st.metric_definitions
        derivedCy := dictSet name cy st.derivedCy
        derivedPy := dictSet name py st.derivedPy }
    | _, _ => .error .valueError

/-- `WBRCalculator.add_custom_metric(name, func, dependencies)` (lines
298-325); the user function is modelled as a total function of the window. -/
def add_custom_metric (st : CalcState) (name : Nat) (dependencies : List Nat)
    (func : List (Nat × List PVal) → List PVal) : Except PyErr CalcState :=
  if ¬ validate_columns_exist st dependencies then .error .valueError
  else
    .ok { st with
      metric_definitions := dictSet name
        ⟨.custom, .value, dependencies⟩ st.metric_definitions
      derivedCy := dictSet name (func st.cyCols) st.derivedCy
      derivedPy := dictSet name (func st.pyCols) st.derivedPy }

/-!
WoW / YoY comparison functions.  A weekly metric column is a
`List (Option ℚ)`, `none` being a NaN/NA cell; `List.filterMap id` is
`Series.dropna()`.
-/

/-- Round-half-to-even to an integer, the tie rule of Python `round`. -/
def roundHalfEven (q : ℚ) : ℤ :=
  if Int.fract q < 1 / 2 then ⌊q⌋
  else if 1 / 2 < Int.fract q then ⌊q⌋ + 1
  else if ⌊q⌋ % 2 = 0 then ⌊q⌋ else ⌊q⌋ + 1

/-- Python `round(q, 2)` in the rational model. -/
def pyRound2 (q : ℚ) : ℚ := (roundHalfEven (q * 100) : ℚ) / 100

/-- `compute_last_prev` (src/src/core/wbr_utility.py lines 627-664)
restricted to one metric column: `none` when the frame has fewer than two
rows (the metric is then absent from the result dict); otherwise the
`(prev, last)` pair of the last two rows, each `none` if NaN. -/
def compute_last_prev (col : List (Option ℚ)) : Option (Option ℚ × Option ℚ) :=
  if col.length < 2 then none
  else some (col.getD (col.length - 2) none, col.getD (col.length - 1) none)

/-- `compute_wow` (src/src/core/wbr_utility.py lines 667-691, `decimals=2`)
restricted to one metric column.  Outer `none`: metric absent (fewer than
two rows); inner `none`: WoW not computable (a NaN endpoint or a zero
previous value). -/
def compute_wow (col : List (Option ℚ)) : Option (Option ℚ) :=
  (compute_last_prev col).map (fun pl =>
    match pl.1, pl.2 with
    | none, _ => none
    | _, none => none
    | some prev_val, some last_val =>
        if prev_val = 0 then none
        else some (pyRound2 ((last_val - prev_val) / prev_val * 100)))

/-- `ComparisonResult` (wbr_metrics.py lines 50-71); NaN-able `Decimal`
fields as `Option ℚ`. -/
structure ComparisonResult where
  current_value : Option ℚ
  previous_value : Option ℚ
  absolute_change : Option ℚ
  percent_change : Option ℚ
deriving DecidableEq, Repr

/-- `WBRCalculator._compute_wow_single(series, ...)` (wbr_metrics.py lines
347-398): drop NaNs, take the last two valid values, and set
`percent_change = None if previous == 0 else (current/previous - 1) * 100`;
the final `Decimal(str(percent_change)) if percent_change else None`
converts both `None` and a computed `0` to `None` (Python truthiness). -/
def compute_wow_single (series : List (Option ℚ)) : ComparisonResult :=
  let valid := series.filterMap id
  if valid.length < 2 then ⟨none, none, none, none⟩
  else
    let current := valid.getD (valid.length - 1) 0
    let previous := valid.getD (valid.length - 2) 0
    let absolute_change := current - previous
    let percent_change : Option ℚ :=
      if previous = 0 then none else some ((current / previous - 1) * 100)
    ⟨some current, some previous, some absolute_change,
      match percent_change with
      | none => none
      | some v => if v = 0 then none else some v⟩

/-- `WBRCalculator.compute_yoy_last_week(metric)` (wbr_metrics.py lines
400-443) on the CY/PY columns of one metric: last valid value of each side;
all-NaN on a missing side; the same truthiness conversion of
`percent_change` as in `_compute_wow_single`. -/
def compute_yoy_last_week (cy py : List (Option ℚ)) : ComparisonResult :=
  match (cy.filterMap id).getLast?, (py.filterMap id).getLast? with
  | some cy_last, some py_last =>
      let absolute_change := cy_last - py_last
      let percent_change : Option ℚ :=
        if py_last = 0 then none else some ((cy_last / py_last - 1) * 100)
      ⟨some cy_last, some py_last, some absolute_change,
        match percent_change with
        | none => none
        | some v => if v = 0 then none else some v⟩
  | _, _ => ⟨none, none, none, none⟩

/-!
Daily-series preparation and the trailing weekly window builder.  A daily
row is `(day number, metric value)`.
-/

/-- `DataFrame.sort_values(date_column)` on daily rows: a stable sort by
date. -/
def sort_values_by_date (rows : List (Int × ℚ)) : List (Int × ℚ) :=
  rows.insertionSort (fun a b => a.1 ≤ b.1)

/-- `DataFrame.drop_duplicates(subset=[date_column])`: keep the first row of
each date, in order. -/
def drop_duplicates_by_date : List (Int × ℚ) → List (Int × ℚ)
  | [] => []
  | p :: rest =>
      p :: drop_duplicates_by_date (rest.filter (fun q => q.1 != p.1))
termination_by l => l.length
decreasing_by
  simp only [List.length_cons]
  exact Nat.lt_succ_of_le (List.length_filter_le _ _)

/-- `prepare_data_for_wbr(df, ...)` (src/src/core/wbr_utility.py lines
286-316): sort by date, then drop duplicate dates keeping the first row. -/
def prepare_data_for_wbr (rows : List (Int × ℚ)) : List (Int × ℚ) :=
  drop_duplicates_by_date (sort_values_by_date rows)

/-- The date-wise total of one date in a daily frame. -/
def sumAtDate (rows : List (Int × ℚ)) (d : Int) : ℚ :=
  ((rows.filter (fun r => r.1 == d)).map (·.2)).sum

/-- `df_work.groupby('Date').agg({...: 'sum'}).reset_index()` (groupby sorts
its keys ascending). -/
def groupby_sum_date (rows : List (Int × ℚ)) : List (Int × ℚ) :=
  (((rows.map (·.1)).dedup).insertionSort (· ≤ ·)).map
    (fun d => (d, sumAtDate rows d))

/-- The duplicate-handling step of `compute_trailing_weeks`
(processing.py lines 334-341): aggregate duplicate dates by sum when any
exist, then sort by date. -/
def dedup_by_sum (rows : List (Int × ℚ)) : List (Int × ℚ) :=
  sort_values_by_date
    (if (rows.map (·.1)).Nodup then rows else groupby_sum_date rows)

/-- The 7-day bin (resample anchor, i.e. the bin's right/end label) of day
`d` under the weekly rule anchored at `week_ending`, for `d ≤ week_ending`. -/
def binEnd (week_ending d : Int) : Int :=
  week_ending - 7 * ((week_ending - d) / 7)

/-- `resample(rule, on=date, label='right', closed='right').agg('sum')` on a
daily frame: one row per 7-day bin from the bin of the earliest date to the
bin of the latest, each holding the sum of its rows (`0` for an interior
empty bin).  Empty input gives an empty frame. -/
def resampleWeeklySum (week_ending : Int) (rows : List (Int × ℚ)) :
    List (Int × Option ℚ) :=
  match rows with
  | [] => []
  | r :: rs =>
    let dmin := rs.foldl (fun a p => min a p.1) r.1
    let dmax := rs.foldl (fun a p => max a p.1) r.1
    let b0 := binEnd week_ending dmin
    let b1 := binEnd week_ending dmax
    let n := ((b1 - b0) / 7).toNat + 1
    (List.range n).map (fun (k : Nat) =>
      let a := b0 + 7 * (k : Int)
      (a, some (((rows.filter (fun p => binEnd week_ending p.1 == a)).map
        (·.2)).sum)))

/-- The padding `while` loop of `create_trailing_six_weeks` (lines 231-234):
while fewer than `num_weeks` rows, step the earliest week ending back by 7
days and prepend an all-NA row (`create_new_row`).  `fuel` bounds the
iteration count; `num_weeks` iterations always suffice. -/
def padWeeks (num_weeks : Nat) : Nat → Int → List (Int × Option ℚ) →
    List (Int × Option ℚ)
  | 0, _, w => w
  | fuel + 1, earliest, w =>
      if w.length < num_weeks then
        padWeeks num_weeks fuel (earliest - 7) ((earliest - 7, none) :: w)
      else w

/-- The trailing daily slice of `create_trailing_six_weeks`
(src/src/core/wbr_utility.py lines 196-202): the rows between
`week_ending - (num_weeks * 7 - 1)` and `week_ending`, inclusive. -/
def trailing_filter (rows : List (Int × ℚ)) (week_ending : Int)
    (num_weeks : Nat) : List (Int × ℚ) :=
  rows.filter (fun p =>
    week_ending - ((7 * num_weeks : Int) - 1) ≤ p.1 && p.1 ≤ week_ending)

/-- The resampled weekly frame of `create_trailing_six_weeks` (lines
207-221). -/
def weekly_frame (rows : List (Int × ℚ)) (week_ending : Int)
    (num_weeks : Nat) : List (Int × Option ℚ) :=
  resampleWeeklySum week_ending (trailing_filter rows week_ending num_weeks)

/-- `earliest_week` (lines 224-228): the first week ending of the resampled
frame, or `week_ending` itself when the frame is empty. -/
def earliest_week (rows : List (Int × ℚ)) (week_ending : Int)
    (num_weeks : Nat) : Int :=
  match (weekly_frame rows week_ending num_weeks).head? with
  | some r => r.1
  | none => week_ending

/-- The padded weekly frame (lines 230-234). -/
def padded_frame (rows : List (Int × ℚ)) (week_ending : Int)
    (num_weeks : Nat) : List (Int × Option ℚ) :=
  padWeeks num_weeks num_weeks (earliest_week rows week_ending num_weeks)
    (weekly_frame rows week_ending num_weeks)

/-- `create_trailing_six_weeks(df, week_ending, aggregation_map, num_weeks)`
(src/src/core/wbr_utility.py lines 134-240) for one sum-aggregated metric:
filter the trailing `num_weeks * 7`-day range, resample into 7-day bins
anchored at `week_ending`'s weekday, pad at the old end with NA rows up to
`num_weeks` rows, sort by date and keep the last `num_weeks` rows
(`sort_values(date).tail(num_weeks)`). -/
def create_trailing_six_weeks (rows : List (Int × ℚ)) (week_ending : Int)
    (num_weeks : Nat) : List (Int × Option ℚ) :=
  let sorted := (padded_frame rows week_ending num_weeks).insertionSort
    (fun a b => a.1 ≤ b.1)
  sorted.drop (sorted.length - num_weeks)

/-!
`processar_dados_wbr` (wbr-streamlit-bigquery/src/core/processing.py): week
grid, previous-year alignment, monthly Jan..Dec window and partial-month
detection.  `ref` is the day number of `data_referencia`.
-/

/-- `data_referencia.to_period('W-SUN').end_time` (processing.py line 77). -/
def fim_semana_completa (ref : Int) : Int := sundayOnOrAfter ref

/-- `semana_parcial = data_referencia < fim_semana_completa` (line 78). -/
def semana_parcial (ref : Int) : Bool := ref < fim_semana_completa ref

/-- `to_period('W-SUN').start_time`, the Monday of the reference week
(line 84). -/
def inicio_semana_atual (ref : Int) : Int := fim_semana_completa ref - 6

/-- `fim_semana` (lines 81-88): the reference date while mid-week, else the
completed Sunday. -/
def fim_semana (ref : Int) : Int :=
  if semana_parcial ref then ref else fim_semana_completa ref

/-- Start/end day numbers of CY week `i` (`i = 0` oldest .. `5` newest) in
the processing loop (lines 161-172). -/
def cy_week_bounds (ref : Int) (i : Nat) : Int × Int :=
  if i = 5 ∧ semana_parcial ref then (inicio_semana_atual ref, ref)
  else
    let fim := fim_semana ref - 7 * (5 - (i : Int))
    (fim - 6, fim)

/-- The `except ValueError` fallback of the endpoint mapping (lines
180-183): same month in the previous year with the day capped at 28. -/
def replace_year_min28 (dt : Date) (y : Int) : Date := ⟨y, dt.month, min dt.day 28⟩

/-- Start/end dates of PY week `i` (lines 174-183): both CY endpoints are
mapped by `Timestamp.replace(year=ano_anterior)`; if either raises (the date
does not exist in that year), both fall back to `min(day, 28)`. -/
def py_week_bounds (ref : Int) (i : Nat) : Date × Date :=
  let sb := cy_week_bounds ref i
  let sd := civilFromDays sb.1
  let ed := civilFromDays sb.2
  let y := (civilFromDays ref).year - 1
  if sd.day ≤ daysInMonth y sd.month ∧ ed.day ≤ daysInMonth y ed.month then
    (⟨y, sd.month, sd.day⟩, ⟨y, ed.month, ed.day⟩)
  else
    (replace_year_min28 sd y, replace_year_min28 ed y)

/-- `data_ref_py` (lines 135-140): the reference date with the year
decremented, falling back to day 28 when the date does not exist. -/
def data_ref_py (ref : Int) : Date :=
  let d := civilFromDays ref
  let y := d.year - 1
  if d.day ≤ daysInMonth y d.month then ⟨y, d.month, d.day⟩ else ⟨y, d.month, 28⟩

/-- `WBRCalculator._build_trailing_windows` (wbr_metrics.py line 172): the
previous-year week ending is a fixed 364-day shift of `week_ending`. -/
def build_py_week_ending (week_ending : Int) : Int := week_ending - 364

/-- The PY daily slice of `_build_trailing_windows` (lines 175-181). -/
def build_py_daily (rows : List (Int × ℚ)) (week_ending : Int)
    (num_weeks : Nat) : List (Int × ℚ) :=
  let pwe := build_py_week_ending week_ending
  let py_start := pwe - ((7 * num_weeks : Int) - 1)
  rows.filter (fun p => py_start ≤ p.1 && p.1 ≤ pwe)

/-- The PY window metric values of `_build_trailing_windows` (lines
183-201): `num_weeks` all-NA rows when the PY slice is empty, else the
trailing window over the slice, ending 364 days before `week_ending`. -/
def build_py_values (rows : List (Int × ℚ)) (week_ending : Int)
    (num_weeks : Nat) : List (Option ℚ) :=
  let pd := build_py_daily rows week_ending num_weeks
  if pd.isEmpty then List.replicate num_weeks none
  else (create_trailing_six_weeks pd (build_py_week_ending week_ending)
    num_weeks).map (·.2)

/-- The last calendar day of the reference date's month. -/
def lastDayOfMonth (d : Date) : Date := ⟨d.year, d.month, daysInMonth d.year d.month⟩

/-- `dados_mes_ref` (processing.py line 112): rows between the 1st of the
reference month and the reference date, inclusive.  Daily rows carry civil
dates here. -/
def dados_mes_ref (rows : List (Date × ℚ)) (ref : Date) : List (Date × ℚ) :=
  rows.filter (fun p => dle ⟨ref.year, ref.month, 1⟩ p.1 && dle p.1 ref)

/-- The partial-month detection (processing.py lines 107-116):
`(mes_parcial_cy, dias_mes_parcial_cy)`.  Both keep their initial values
(`False`, `0`) when the reference month slice is empty; otherwise the flag
is `data_referencia < fim_mes_ref` and the count is the number of distinct
days in the slice. -/
def mes_parcial_info (rows : List (Date × ℚ)) (ref : Date) : Bool × Nat :=
  let dados := dados_mes_ref rows ref
  if dados.isEmpty then (false, 0)
  else (dlt ref (lastDayOfMonth ref), ((dados.map (·.1)).dedup).length)

/-- `df_ano_cy` (processing.py line 95): rows between January 1 of the
reference year and the reference date, inclusive. -/
def df_ano_cy (rows : List (Date × ℚ)) (ref : Date) : List (Date × ℚ) :=
  rows.filter (fun p => dle ⟨ref.year, 1, 1⟩ p.1 && dle p.1 ref)

/-- Sum of the values of the rows of calendar month `m`. -/
def monthSum (rows : List (Date × ℚ)) (m : Nat) : ℚ :=
  ((rows.filter (fun p => p.1.month == m)).map (·.2)).sum

/-- Consecutive month bins `lo, lo+1, ...` (`cnt` of them), each with its
monthly sum. -/
def monthBins (rows : List (Date × ℚ)) (lo : Nat) : Nat → List (Nat × ℚ)
  | 0 => []
  | cnt + 1 => (lo, monthSum rows lo) :: monthBins rows (lo + 1) cnt

/-- Least month among the rows, folded from `acc`. -/
def monthMin : List (Date × ℚ) → Nat → Nat
  | [], acc => acc
  | p :: ps, acc => monthMin ps (min acc p.1.month)

/-- Greatest month among the rows, folded from `acc`. -/
def monthMax : List (Date × ℚ) → Nat → Nat
  | [], acc => acc
  | p :: ps, acc => monthMax ps (max acc p.1.month)

/-- `resample('MS').agg('sum')` on the year slice: month bins from the
earliest to the latest month present (interior empty months sum to 0);
empty input gives an empty frame.  The year slice holds a single calendar
year, so bins are keyed by month number. -/
def resample_MS (rows : List (Date × ℚ)) : List (Nat × ℚ) :=
  match rows with
  | [] => []
  | r :: rs =>
    let lo := monthMin rs r.1.month
    let hi := monthMax rs r.1.month
    monthBins rows lo (hi + 1 - lo)

/-- `df_12m_cy` (processing.py lines 94-105): resample the year slice by
month, reindex to the 12 months Jan..Dec of the reference year, and
`fillna(0)` every month not strictly after the reference month.  Entry `k`
is month `k + 1`; `none` is NaN. -/
def meses_cy (rows : List (Date × ℚ)) (ref : Date) : List (Option ℚ) :=
  let bins := resample_MS (df_ano_cy rows ref)
  (List.range 12).map (fun k =>
    let v := (bins.find? (fun p => p.1 == k + 1)).map (·.2)
    if ref.month < k + 1 then v else some (v.getD 0))

/-!
`calcular_kpis` of src/wbr/kpis.py: ISO-week aligned dashboard KPIs.  The
daily frame is `List (Int × Option ℚ)` (day number, possibly-NaN value);
`pandas.Series.sum()` skips NaN and returns `0.0` on an empty or all-NaN
selection.
-/

/-- Sum of the metric over the inclusive day range `[lo, hi]`
(`df[(df.index >= lo) & (df.index <= hi)][metrica].sum()`). -/
def pdSum (rows : List (Int × Option ℚ)) (lo hi : Int) : ℚ :=
  ((rows.filter (fun p => lo ≤ p.1 && p.1 ≤ hi)).filterMap (·.2)).sum

/-- `_to_float` (kpis.py lines 35-41): NaN becomes `0.0`. -/
def to_float (x : Option ℚ) : ℚ := x.getD 0

/-- `_safe_div` (kpis.py lines 43-46): the quotient when the denominator is
strictly positive, else `0.0`. -/
def safe_div (num den : ℚ) : ℚ := if 0 < den then num / den else 0

/-- The Monday of ISO week 1 of year `y` (the week containing January 4). -/
def mondayOfIsoWeek1 (y : Int) : Int :=
  let j4 := daysFromCivil y 1 4
  j4 - (isoWeekdayOfDay j4 - 1)

/-- The ISO week number of a day number (`Timestamp.isocalendar()[1]`). -/
def isoWeekOfDay (z : Int) : Int :=
  let monday := z - (isoWeekdayOfDay z - 1)
  let thursday := monday + 3
  let iy := (civilFromDays thursday).year
  (monday - mondayOfIsoWeek1 iy) / 7 + 1

/-- The number of ISO weeks of year `y` (52 or 53). -/
def isoWeeksInYear (y : Int) : Int := isoWeekOfDay (daysFromCivil y 12 28)

/-- `date.fromisocalendar(y, w, 7)` (the Sunday of ISO week `w` of year
`y`), raising `ValueError` on an out-of-range week number. -/
def fromisocalendar_sunday (y w : Int) : Except PyErr Int :=
  if 1 ≤ w ∧ w ≤ isoWeeksInYear y then
    .ok (mondayOfIsoWeek1 y + 7 * (w - 1) + 6)
  else .error .valueError

/-- `ts - DateOffset(years=1)`: same month/day in the previous year, the day
clamped to that month's length (Feb 29 → Feb 28). -/
def minusOneYear (z : Int) : Int :=
  let d := civilFromDays z
  let y := d.year - 1
  daysFromCivil y d.month (min d.day (daysInMonth y d.month))

/-- The KPI dictionary returned by `calcular_kpis` of kpis.py. -/
structure KpiIso where
  ultima_semana : ℚ
  mes_atual : ℚ
  trimestre_atual : ℚ
  ano_atual : ℚ
  var_semanal : ℚ
  yoy_semanal : ℚ
  yoy_mensal : ℚ
  yoy_trimestral : ℚ
  yoy_anual : ℚ
  yoy_pct : ℚ
  yoy_abs : ℚ
  wow_pct : ℚ
  wow_abs : ℚ
  mtd_atual : ℚ
  mtd_pct : ℚ
deriving DecidableEq, Repr

/-- The previous-calendar-week sum of `calcular_kpis` (kpis.py lines
53-57). -/
def semana_anterior_sum (rows : List (Int × Option ℚ)) (ref : Int) : ℚ :=
  let inicio := inicio_semana_atual ref
  let dias := ref - inicio
  pdSum rows (inicio - 7) (inicio - 7 + dias)

/-- The ISO-aligned previous-year week sum of `calcular_kpis` (kpis.py lines
59-68). -/
def semana_py_sum (rows : List (Int × Option ℚ)) (ref : Int) : ℚ :=
  let fim_cal := fim_semana_completa ref
  let w := isoWeekOfDay fim_cal
  let y := (civilFromDays ref).year - 1
  let fim_py := match fromisocalendar_sunday y w with
    | .ok d => d
    | .error _ =>
        match fromisocalendar_sunday y 52 with
        | .ok d => d
        | .error _ => 0
  let inicio_py := fim_py - 6
  let dias := ref - inicio_semana_atual ref
  pdSum rows inicio_py (inicio_py + dias)

/-- First day of the reference date's month, as a day number. -/
def inicio_mes_day (ref : Int) : Int :=
  let d := civilFromDays ref
  daysFromCivil d.year d.month 1

/-- First day of the reference date's quarter, as a day number. -/
def inicio_trimestre_day (ref : Int) : Int :=
  let d := civilFromDays ref
  daysFromCivil d.year (((d.month - 1) / 3) * 3 + 1) 1

/-- First day of the reference date's year, as a day number. -/
def inicio_ano_day (ref : Int) : Int :=
  let d := civilFromDays ref
  daysFromCivil d.year 1 1

/-- `calcular_kpis(df, data_referencia, ...)` (kpis.py lines 11-105). -/
def calcular_kpis_iso (rows : List (Int × Option ℚ)) (ref : Int) : KpiIso :=
  let inicio_sem := inicio_semana_atual ref
  let ultima_semana := pdSum rows inicio_sem ref
  let semana_anterior := semana_anterior_sum rows ref
  let semana_py := semana_py_sum rows ref
  let mes_atual := pdSum rows (inicio_mes_day ref) ref
  let mes_py := pdSum rows (minusOneYear (inicio_mes_day ref)) (minusOneYear ref)
  let trimestre_atual := pdSum rows (inicio_trimestre_day ref) ref
  let trimestre_py :=
    pdSum rows (minusOneYear (inicio_trimestre_day ref)) (minusOneYear ref)
  let ano_atual := pdSum rows (inicio_ano_day ref) ref
  let ano_py := pdSum rows (minusOneYear (inicio_ano_day ref)) (minusOneYear ref)
  { ultima_semana := ultima_semana
    mes_atual := mes_atual
    trimestre_atual := trimestre_atual
    ano_atual := ano_atual
    var_semanal := safe_div (ultima_semana - semana_anterior) semana_anterior * 100
    yoy_semanal := safe_div (ultima_semana - semana_py) semana_py * 100
    yoy_mensal := safe_div (mes_atual - mes_py) mes_py * 100
    yoy_trimestral := safe_div (trimestre_atual - trimestre_py) trimestre_py * 100
    yoy_anual := safe_div (ano_atual - ano_py) ano_py * 100
    yoy_pct := safe_div (ultima_semana - semana_py) semana_py * 100
    yoy_abs := ultima_semana - semana_py
    wow_pct := safe_div (ultima_semana - semana_anterior) semana_anterior * 100
    wow_abs := ultima_semana - semana_anterior
    mtd_atual := mes_atual
    mtd_pct := safe_div (mes_atual - mes_py) mes_py * 100 }

/-!
The compatibility `calcular_kpis` of wbr_metrics.py (lines 653-720) and
`get_dashboard_kpis` (lines 500-591).
-/

/-- The 13-key KPI dictionary of the dashboard entry points. -/
structure KpiDict where
  ultima_semana : ℚ
  var_semanal : ℚ
  yoy_semanal : ℚ
  mes_atual : ℚ
  yoy_mensal : ℚ
  trimestre_atual : ℚ
  yoy_trimestral : ℚ
  ano_atual : ℚ
  yoy_anual : ℚ
  wow_pct : ℚ
  wow_abs : ℚ
  mtd_atual : ℚ
  mtd_pct : ℚ
deriving DecidableEq, Repr

/-- The all-zero safe-default dictionary (wbr_metrics.py lines 577-591 and
706-720). -/
def zeroKpis : KpiDict :=
  ⟨0, 0, 0, 0, 0, 0, 0, 0, 0, 0, 0, 0, 0⟩

/-- The `try` body of `get_dashboard_kpis` (wbr_metrics.py lines 508-572) on
the CY/PY window value columns: positional access to weeks 6 and 5
(`iloc[5]`, `iloc[4]`, an `IndexError` on a shorter window), NaN collapsed
to 0, guarded percentage changes, and the 6-week sums as the MTD proxy. -/
def dashboard_kpis_body (cyv pyv : List (Option ℚ)) : Except PyErr KpiDict :=
  if 5 < cyv.length ∧ 5 < pyv.length then
    let ultima_semana := (cyv.getD 5 none).getD 0
    let semana_anterior := (cyv.getD 4 none).getD 0
    let ultima_semana_py := (pyv.getD 5 none).getD 0
    let wow_abs := ultima_semana - semana_anterior
    let wow_pct := if semana_anterior ≠ 0 then
      (ultima_semana / semana_anterior - 1) * 100 else 0
    let yoy_pct := if ultima_semana_py ≠ 0 then
      (ultima_semana / ultima_semana_py - 1) * 100 else 0
    let mes_atual := (cyv.filterMap id).sum
    let mes_py := (pyv.filterMap id).sum
    let mtd_pct := if mes_py ≠ 0 then (mes_atual / mes_py - 1) * 100 else 0
    .ok ⟨ultima_semana, wow_pct, yoy_pct, mes_atual, mtd_pct, mes_atual,
      mtd_pct, mes_atual, mtd_pct, wow_pct, wow_abs, mes_atual, mtd_pct⟩
  else .error .indexError

/-- `get_dashboard_kpis` (wbr_metrics.py lines 500-591): the body under
`try`, the all-zero dictionary on any exception. -/
def get_dashboard_kpis (cyv pyv : List (Option ℚ)) : KpiDict :=
  match dashboard_kpis_body cyv pyv with
  | .ok d => d
  | .error _ => zeroKpis

/-- The input frame of the compatibility `calcular_kpis`: whether the date
column exists, and the daily rows. -/
structure DFrame where
  hasDateCol : Bool
  rows : List (Int × ℚ)
deriving Repr

/-- The `try` body of the compatibility `calcular_kpis` (wbr_metrics.py
lines 667-701): build a `WBRCalculator` (data preparation raises `KeyError`
when the date column is missing; CY window via `create_trailing_six_weeks`,
PY window via the 364-day shift) and return its dashboard KPIs. -/
def calcular_kpis_compat_body (df : DFrame) (ref : Int) :
    Except PyErr KpiDict := do
  let rows ← if df.hasDateCol then
      Except.ok (prepare_data_for_wbr df.rows)
    else Except.error PyErr.keyError
  let cyv := (create_trailing_six_weeks rows ref 6).map (·.2)
  let pyv := build_py_values rows ref 6
  return get_dashboard_kpis cyv pyv

/-- The compatibility `calcular_kpis` (wbr_metrics.py lines 653-720): the
body under `try`; the all-zero 13-key dictionary on any exception. -/
def calcular_kpis_compat (df : DFrame) (ref : Int) : KpiDict :=
  match calcular_kpis_compat_body df ref with
  | .ok d => d
  | .error _ => zeroKpis

/-- The last value of `series.dropna()` (`iloc[-1]`). -/
def last_valid (s : List (Option ℚ)) : ℚ :=
  (s.filterMap id).getD ((s.filterMap id).length - 1) 0

/-- The next-to-last value of `series.dropna()` (`iloc[-2]`). -/
def prev_valid (s : List (Option ℚ)) : ℚ :=
  (s.filterMap id).getD ((s.filterMap id).length - 2) 0

instance : IsTotal (Int × Option ℚ) (fun a b => a.1 ≤ b.1) :=
  ⟨fun a b => le_total a.1 b.1⟩

instance : IsTrans (Int × Option ℚ) (fun a b => a.1 ≤ b.1) :=
  ⟨fun _ _ _ => le_trans⟩

instance : IsTotal (Int × ℚ) (fun a b => a.1 ≤ b.1) :=
  ⟨fun a b => le_total a.1 b.1⟩

instance : IsTrans (Int × ℚ) (fun a b => a.1 ≤ b.1) :=
  ⟨fun _ _ _ => le_trans⟩

/-- A calculator state with base columns `0`, `1` and a metric already
registered under name `7`. -/
def sampleCalcState : CalcState :=
  ⟨[(0, [PVal.num 1]), (1, [PVal.num 2])],
   [(0, [PVal.num 1]), (1, [PVal.num 2])],
   [], [],
   [(7, ⟨.custom, .value, []⟩)]⟩

/-- C6: evaluation of `_safe_divide` at the failing input of Scenario C
(`revenue = 5`, `orders = 0`): with `handle_zero='nan'` the cell is `+inf`
(plain numpy division), not NaN; with `'zero'` it is also `+inf`
(`fillna(0)` only replaces NaN); with `'inf'` it is NaN (the branch replaces
infinities by NaN).  The code contradicts its own option names and the
spec's stated policy. -/
theorem safe_divide_nan_yields_inf :
    safe_divide [PVal.num 5] [PVal.num 0] HandleZero.hznan =
      .ok [PVal.inf] ∧
    safe_divide [PVal.num 5] [PVal.num 0] HandleZero.hzzero =
      .ok [PVal.inf] ∧
    safe_divide [PVal.num 5] [PVal.num 0] HandleZero.hzinf =
      .ok [PVal.nan] ∧
    (add_div_metric
        ⟨[(0, [PVal.num 5]), (1, [PVal.num 0])],
         [(0, [PVal.num 5]), (1, [PVal.num 0])], [], [], []⟩
        2 0 1 HandleZero.hznan).map (fun st => dictGet st.derivedCy 2) =
      .ok (some [PVal.inf]) := by
  exact ⟨rfl, rfl, rfl, rfl⟩

/-- C1 counterexample: with a nonzero previous value equal to the current
value, `_compute_wow_single` and `compute_yoy_last_week` return
`percent_change = None`, not 0 (the `Decimal(str(pc)) if pc else None`
truthiness test collapses a computed 0 to `None`); and the returned
percentage is not rounded to two decimals. -/
theorem wow_single_zero_change_is_none :
    (compute_wow_single [some 1, some 1]).percent_change = none ∧
    (compute_yoy_last_week [some 2] [some 2]).percent_change = none ∧
    (compute_wow_single [some 7, some 3]).percent_change ≠
      some (pyRound2 ((3 - 7) / 7 * 100)) := by
  refine ⟨?_, ?_, ?_⟩
  · norm_num [compute_wow_single, List.filterMap_cons, List.getD]
  · norm_num [compute_yoy_last_week]
  · norm_num [compute_wow_single, List.filterMap_cons, List.getD, pyRound2,
      roundHalfEven, Int.fract]

/-- C2 counterexample: `_build_trailing_windows` ends the PY window a fixed
364 days before the reference (2025-03-15 maps to 2024-03-16, not the
year-decremented 2024-03-15); and in `processar_dados_wbr` the PY week
obtained for CY week 2025-02-24..2025-03-02 is 2024-02-24..2024-03-02, which
spans 7 elapsed days instead of the CY week's 6 because Feb 29 exists only
in 2024 — so the PY equivalent does not always cover the same elapsed-day
count. -/
theorem py_alignment_mismatch :
    build_py_week_ending (daysFromCivil 2025 3 15) ≠ daysFromCivil 2024 3 15 ∧
    (py_week_bounds (daysFromCivil 2025 3 9) 4).1 = ⟨2024, 2, 24⟩ ∧
    (py_week_bounds (daysFromCivil 2025 3 9) 4).2 = ⟨2024, 3, 2⟩ ∧
    (py_week_bounds (daysFromCivil 2025 3 9) 4).2.toDay -
      (py_week_bounds (daysFromCivil 2025 3 9) 4).1.toDay = 7 ∧
    (cy_week_bounds (daysFromCivil 2025 3 9) 4).2 -
      (cy_week_bounds (daysFromCivil 2025 3 9) 4).1 = 6 := by
  refine ⟨by decide, rfl, rfl, rfl, rfl⟩

/-- C3 counterexample: with data only in January and a mid-February
reference date, the reference-month slice is empty, so `mes_parcial_cy`
stays `False` even though 2025-02-10 is not the last calendar day of its
month. -/
theorem mes_parcial_empty_month_false :
    (mes_parcial_info [(⟨2025, 1, 5⟩, 1)] ⟨2025, 2, 10⟩).1 = false ∧
    (⟨2025, 2, 10⟩ : Date) ≠ lastDayOfMonth ⟨2025, 2, 10⟩ := by
  refine ⟨rfl, by decide⟩

/-- C7 counterexample: with name `7` already present in
`metric_definitions`, both `add_div_metric` and `add_product_metric`
succeed — no `DuplicateMetricError` (no such exception exists anywhere in
the code), and the new definition replaces the old one. -/
theorem add_metric_duplicate_ok :
    (dictGet sampleCalcState.metric_definitions 7).isSome = true ∧
    (add_div_metric sampleCalcState 7 0 1 HandleZero.hznan).isOk = true ∧
    (add_product_metric sampleCalcState 7 0 1).isOk = true ∧
    (add_product_metric sampleCalcState 7 0 1).map
        (fun st => dictGet st.metric_definitions 7) =
      .ok (some ⟨.product 0 1, .value, [0, 1]⟩) := by
  exact ⟨rfl, rfl, rfl, rfl⟩

/-- C8 counterexample: two rows on the same date with values 1 and 2:
`prepare_data_for_wbr` keeps only the first row, so the per-metric total of
the prepared series is 1, not the input total 3 — duplicates are dropped,
not aggregated by sum. -/
theorem prepare_drops_duplicate_values :
    prepare_data_for_wbr [(0, 1), (0, 2)] = [(0, 1)] ∧
    ((prepare_data_for_wbr [(0, 1), (0, 2)]).map (·.2)).sum ≠
      (([(0, 1), (0, 2)] : List (Int × ℚ)).map (·.2)).sum := by
  constructor
  · simp [prepare_data_for_wbr, sort_values_by_date, drop_duplicates_by_date,
      List.insertionSort, List.orderedInsert]
  · norm_num [prepare_data_for_wbr, sort_values_by_date, drop_duplicates_by_date,
      List.insertionSort, List.orderedInsert]

/-- Looking up a key right after a dict assignment yields the new value. -/
theorem dictGet_dictSet (k : Nat) (v : α) (m : List (Nat × α)) :
    dictGet (dictSet k v m) k = some v := by
  induction m with
  | nil => simp [dictGet, dictSet]
  | cons p rest ih =>
      by_cases h : p.1 = k
      · simp [dictSet, h, dictGet]
      · have hb : (p.1 == k) = false := by simp [h]
        simp only [dictSet, beq_iff_eq, if_neg h]
        simp only [dictGet, List.find?, hb] at ih ⊢
        exact ih

/-- C7 (amended): no registration operation checks whether `name` is
already registered; each of the four succeeds whenever its dependency
columns exist (and, for division, `handle_zero` is recognized), and the new
definition silently replaces any existing entry of the same name. -/
theorem add_metric_overwrites :
    (∀ (st : CalcState) (name a b : Nat) (hz : HandleZero),
      validate_columns_exist st [a, b] = true → hz ≠ HandleZero.other →
      (add_div_metric st name a b hz).map
          (fun st' => dictGet st'.metric_definitions name) =
        .ok (some ⟨.ratio a b, .ratio, [a, b]⟩)) ∧
    (∀ (st : CalcState) (name a b : Nat),
      validate_columns_exist st [a, b] = true →
      (add_product_metric st name a b).map
          (fun st' => dictGet st'.metric_definitions name) =
        .ok (some ⟨.product a b, .value, [a, b]⟩)) ∧
    (∀ (st : CalcState) (name a b : Nat),
      validate_columns_exist st [a, b] = true →
      (add_diff_metric st name a b).map
          (fun st' => dictGet st'.metric_definitions name) =
        .ok (some ⟨.difference a b, .value, [a, b]⟩)) ∧
    (∀ (st : CalcState) (name : Nat) (deps : List Nat)
        (f : List (Nat × List PVal) → List PVal),
      validate_columns_exist st deps = true →
      (add_custom_metric st name deps f).map
          (fun st' => dictGet st'.metric_definitions name) =
        .ok (some ⟨.custom, .value, deps⟩)) := by
  refine ⟨?_, ?_, ?_, ?_⟩
  · intro st name a b hz hval hhz
    cases hz with
    | other => exact absurd rfl hhz
    | hznan => simp [add_div_metric, hval, safe_divide, Except.map, dictGet_dictSet]
    | hzzero => simp [add_div_metric, hval, safe_divide, Except.map, dictGet_dictSet]
    | hzinf => simp [add_div_metric, hval, safe_divide, Except.map, dictGet_dictSet]
  · intro st name a b hval
    simp [add_product_metric, hval, Except.map, dictGet_dictSet]
  · intro st name a b hval
    simp [add_diff_metric, hval, Except.map, dictGet_dictSet]
  · intro st name deps f hval
    simp [add_custom_metric, hval, Except.map, dictGet_dictSet]

/-- C7 witness: re-registering name `7` of `sampleCalcState` as a product
metric succeeds and overwrites. -/
theorem add_metric_overwrites_witness :
    (add_product_metric sampleCalcState 7 0 1).map
        (fun st' => dictGet st'.metric_definitions 7) =
      .ok (some ⟨.product 0 1, .value, [0, 1]⟩) :=
  add_metric_overwrites.2.1 sampleCalcState 7 0 1 (by decide)

/-- C10: the compatibility `calcular_kpis` never lets an internal exception
escape: whenever its `try` body fails, it returns the dictionary with all
thirteen KPI fields equal to zero. -/
theorem calcular_kpis_compat_safe :
    ∀ (df : DFrame) (ref : Int) (e : PyErr),
      calcular_kpis_compat_body df ref = .error e →
        calcular_kpis_compat df ref = zeroKpis ∧
        (calcular_kpis_compat df ref).ultima_semana = 0 ∧
        (calcular_kpis_compat df ref).var_semanal = 0 ∧
        (calcular_kpis_compat df ref).yoy_semanal = 0 ∧
        (calcular_kpis_compat df ref).mes_atual = 0 ∧
        (calcular_kpis_compat df ref).yoy_mensal = 0 ∧
        (calcular_kpis_compat df ref).trimestre_atual = 0 ∧
        (calcular_kpis_compat df ref).yoy_trimestral = 0 ∧
        (calcular_kpis_compat df ref).ano_atual = 0 ∧
        (calcular_kpis_compat df ref).yoy_anual = 0 ∧
        (calcular_kpis_compat df ref).wow_pct = 0 ∧
        (calcular_kpis_compat df ref).wow_abs = 0 ∧
        (calcular_kpis_compat df ref).mtd_atual = 0 ∧
        (calcular_kpis_compat df ref).mtd_pct = 0 := by
  intro df ref e h
  have hres : calcular_kpis_compat df ref = zeroKpis := by
    unfold calcular_kpis_compat
    rw [h]
  refine ⟨hres, ?_, ?_, ?_, ?_, ?_, ?_, ?_, ?_, ?_, ?_, ?_, ?_, ?_⟩ <;>
    rw [hres] <;> rfl

/-- C10 witness: a frame without the date column makes the body raise
`KeyError` inside data preparation; the compatibility function still
returns the all-zero dictionary. -/
theorem calcular_kpis_compat_safe_witness :
    calcular_kpis_compat ⟨false, [(0, 1)]⟩ 10 = zeroKpis :=
  (calcular_kpis_compat_safe ⟨false, [(0, 1)]⟩ 10 PyErr.keyError rfl).1

/-- `_safe_div` followed by the `* 100` scaling is 0 whenever the
denominator is not strictly positive. -/
theorem safe_div_nonpos (n d : ℚ) (h : d ≤ 0) : safe_div n d * 100 = 0 := by
  rw [safe_div, if_neg (by linarith), zero_mul]

/-- `_safe_div` followed by `* 100` is the true percentage on a strictly
positive denominator. -/
theorem safe_div_pos (n d : ℚ) (h : 0 < d) : safe_div n d * 100 = n / d * 100 := by
  rw [safe_div, if_pos h]

/-- C9: every percentage field of `calcular_kpis` (kpis.py) is a total
rational: it equals 0 whenever the corresponding previous-period sum is
zero or negative (and an absent period sums to 0, hence also yields 0), and
otherwise equals `(current - previous) / previous * 100`. -/
theorem calcular_kpis_iso_safe :
    ∀ (rows : List (Int × Option ℚ)) (ref : Int),
      (semana_anterior_sum rows ref ≤ 0 →
        (calcular_kpis_iso rows ref).var_semanal = 0 ∧
        (calcular_kpis_iso rows ref).wow_pct = 0) ∧
      (0 < semana_anterior_sum rows ref →
        (calcular_kpis_iso rows ref).var_semanal =
          (pdSum rows (inicio_semana_atual ref) ref - semana_anterior_sum rows ref) /
            semana_anterior_sum rows ref * 100 ∧
        (calcular_kpis_iso rows ref).wow_pct =
          (calcular_kpis_iso rows ref).var_semanal) ∧
      (semana_py_sum rows ref ≤ 0 →
        (calcular_kpis_iso rows ref).yoy_semanal = 0) ∧
      (0 < semana_py_sum rows ref →
        (calcular_kpis_iso rows ref).yoy_semanal =
          (pdSum rows (inicio_semana_atual ref) ref - semana_py_sum rows ref) /
            semana_py_sum rows ref * 100) ∧
      (pdSum rows (minusOneYear (inicio_mes_day ref)) (minusOneYear ref) ≤ 0 →
        (calcular_kpis_iso rows ref).yoy_mensal = 0 ∧
        (calcular_kpis_iso rows ref).mtd_pct = 0) ∧
      (0 < pdSum rows (minusOneYear (inicio_mes_day ref)) (minusOneYear ref) →
        (calcular_kpis_iso rows ref).yoy_mensal =
          (pdSum rows (inicio_mes_day ref) ref -
            pdSum rows (minusOneYear (inicio_mes_day ref)) (minusOneYear ref)) /
            pdSum rows (minusOneYear (inicio_mes_day ref)) (minusOneYear ref) * 100 ∧
        (calcular_kpis_iso rows ref).mtd_pct =
          (calcular_kpis_iso rows ref).yoy_mensal) ∧
      (pdSum rows (minusOneYear (inicio_trimestre_day ref)) (minusOneYear ref) ≤ 0 →
        (calcular_kpis_iso rows ref).yoy_trimestral = 0) ∧
      (0 < pdSum rows (minusOneYear (inicio_trimestre_day ref)) (minusOneYear ref) →
        (calcular_kpis_iso rows ref).yoy_trimestral =
          (pdSum rows (inicio_trimestre_day ref) ref -
            pdSum rows (minusOneYear (inicio_trimestre_day ref)) (minusOneYear ref)) /
            pdSum rows (minusOneYear (inicio_trimestre_day ref)) (minusOneYear ref) * 100) ∧
      (pdSum rows (minusOneYear (inicio_ano_day ref)) (minusOneYear ref) ≤ 0 →
        (calcular_kpis_iso rows ref).yoy_anual = 0) ∧
      (0 < pdSum rows (minusOneYear (inicio_ano_day ref)) (minusOneYear ref) →
        (calcular_kpis_iso rows ref).yoy_anual =
          (pdSum rows (inicio_ano_day ref) ref -
            pdSum rows (minusOneYear (inicio_ano_day ref)) (minusOneYear ref)) /
            pdSum rows (minusOneYear (inicio_ano_day ref)) (minusOneYear ref) * 100) := by
  intro rows ref
  refine ⟨fun h => ⟨?_, ?_⟩, fun h => ⟨?_, ?_⟩, fun h => ?_, fun h => ?_,
    fun h => ⟨?_, ?_⟩, fun h => ⟨?_, ?_⟩, fun h => ?_, fun h => ?_,
    fun h => ?_, fun h => ?_⟩ <;>
    simp only [calcular_kpis_iso] <;>
    first
      | rw [safe_div_nonpos _ _ h]
      | rw [safe_div_pos _ _ h]

/-- C9 witness: with a single data day and no history one year back, the
previous-month sum is 0, so `yoy_mensal` is 0 (not `None`/NaN). -/
theorem calcular_kpis_iso_safe_witness :
    (calcular_kpis_iso [((20342 : Int), some 5)] 20342).yoy_mensal = 0 := by
  have h := calcular_kpis_iso_safe [((20342 : Int), some 5)] 20342
  refine (h.2.2.2.2.1 (by decide)).1

/-- C2 (amended): in `processar_dados_wbr`, each PY week endpoint carries
the year `reference_year - 1` and the same month as its CY endpoint; its
day equals the CY day (always so when both mapped dates exist in that
year), falling back to the cap 28 only for a day beyond 28. -/
theorem py_week_year_replacement :
    ∀ (ref : Int) (i : Nat),
      (py_week_bounds ref i).1.year = (civilFromDays ref).year - 1 ∧
      (py_week_bounds ref i).2.year = (civilFromDays ref).year - 1 ∧
      (py_week_bounds ref i).1.month =
        (civilFromDays (cy_week_bounds ref i).1).month ∧
      (py_week_bounds ref i).2.month =
        (civilFromDays (cy_week_bounds ref i).2).month ∧
      ((py_week_bounds ref i).1.day =
          (civilFromDays (cy_week_bounds ref i).1).day ∨
        ((py_week_bounds ref i).1.day = 28 ∧
          28 < (civilFromDays (cy_week_bounds ref i).1).day)) ∧
      ((py_week_bounds ref i).2.day =
          (civilFromDays (cy_week_bounds ref i).2).day ∨
        ((py_week_bounds ref i).2.day = 28 ∧
          28 < (civilFromDays (cy_week_bounds ref i).2).day)) ∧
      ((civilFromDays (cy_week_bounds ref i).1).day ≤
          daysInMonth ((civilFromDays ref).year - 1)
            (civilFromDays (cy_week_bounds ref i).1).month ∧
        (civilFromDays (cy_week_bounds ref i).2).day ≤
          daysInMonth ((civilFromDays ref).year - 1)
            (civilFromDays (cy_week_bounds ref i).2).month →
        (py_week_bounds ref i).1.day =
          (civilFromDays (cy_week_bounds ref i).1).day ∧
        (py_week_bounds ref i).2.day =
          (civilFromDays (cy_week_bounds ref i).2).day) := by
  intro ref i
  by_cases hc :
      (civilFromDays (cy_week_bounds ref i).1).day ≤
        daysInMonth ((civilFromDays ref).year - 1)
          (civilFromDays (cy_week_bounds ref i).1).month ∧
      (civilFromDays (cy_week_bounds ref i).2).day ≤
        daysInMonth ((civilFromDays ref).year - 1)
          (civilFromDays (cy_week_bounds ref i).2).month
  · simp [py_week_bounds, if_pos hc]
  · simp only [py_week_bounds, if_neg hc, replace_year_min28]
    refine ⟨True.intro, True.intro, True.intro, True.intro, ?_, ?_,
      fun h => absurd h hc⟩
    · rcases le_or_lt (civilFromDays (cy_week_bounds ref i).1).day 28 with h | h
      · exact Or.inl (min_eq_left h)
      · exact Or.inr ⟨min_eq_right h.le, h⟩
    · rcases le_or_lt (civilFromDays (cy_week_bounds ref i).2).day 28 with h | h
      · exact Or.inl (min_eq_left h)
      · exact Or.inr ⟨min_eq_right h.le, h⟩

/-- C2 witness: at reference day 2025-03-09 (a Sunday) and week 4, both
mapped dates exist in 2024, so the PY endpoints preserve the CY month and
day exactly. -/
theorem py_week_year_replacement_witness :
    (py_week_bounds (daysFromCivil 2025 3 9) 4).1.day =
      (civilFromDays (cy_week_bounds (daysFromCivil 2025 3 9) 4).1).day ∧
    (py_week_bounds (daysFromCivil 2025 3 9) 4).2.day =
      (civilFromDays (cy_week_bounds (daysFromCivil 2025 3 9) 4).2).day :=
  (py_week_year_replacement (daysFromCivil 2025 3 9) 4).2.2.2.2.2.2 (by decide)

/-- For a valid date, being strictly before the last day of its month is the
same as not being that last day. -/
theorem dlt_lastDay : ∀ (ref : Date), ref.valid →
    (dlt ref (lastDayOfMonth ref) = true ↔ ref ≠ lastDayOfMonth ref)
  | ⟨y, m, d⟩, h => by
    obtain ⟨-, -, -, h4⟩ := h
    have h4' : d ≤ daysInMonth y m := h4
    simp only [dlt, lastDayOfMonth, Date.mk.injEq]
    simp
    omega

/-- C3 (amended): when the reference month holds at least one data row at
or before the reference date, `mes_parcial_cy` is true exactly when the
reference date is not the last calendar day of its month; and
`dias_mes_parcial_cy` always equals the number of distinct data-bearing
days between the 1st and the reference date inclusive (0 in particular when
the month slice is empty, which also leaves the flag `False`). -/
theorem mes_parcial_characterization :
    ∀ (rows : List (Date × ℚ)) (ref : Date), ref.valid →
      (dados_mes_ref rows ref ≠ [] →
        ((mes_parcial_info rows ref).1 = true ↔ ref ≠ lastDayOfMonth ref)) ∧
      (mes_parcial_info rows ref).2 =
        ((dados_mes_ref rows ref).map (·.1)).toFinset.card := by
  intro rows ref href
  constructor
  · intro hne
    have hemp : (dados_mes_ref rows ref).isEmpty = false := by
      cases hd : dados_mes_ref rows ref with
      | nil => exact absurd hd hne
      | cons a l => simp [hd]
    simp only [mes_parcial_info, hemp, Bool.false_eq_true, if_neg]
    simpa using dlt_lastDay ref href
  · cases hd : dados_mes_ref rows ref with
    | nil => simp [mes_parcial_info, hd]
    | cons a l =>
        simp only [mes_parcial_info, hd]
        exact (List.card_toFinset _).symm

/-- C3 witness: a February data row before a mid-February reference date
makes the month slice nonempty, so the partial flag is exactly the
not-last-day test (true at 2025-02-10). -/
theorem mes_parcial_characterization_witness :
    (mes_parcial_info [(⟨2025, 2, 5⟩, 1)] ⟨2025, 2, 10⟩).1 = true :=
  ((mes_parcial_characterization [(⟨2025, 2, 5⟩, 1)] ⟨2025, 2, 10⟩
    (by decide)).1 (by decide)).mpr (by decide)

/-- Boolean date order decoded as a proposition. -/
theorem dle_iff (a b : Date) :
    dle a b = true ↔
      (a.year < b.year ∨ (a.year = b.year ∧
        (a.month < b.month ∨ (a.month = b.month ∧ a.day ≤ b.day)))) := by
  simp [dle]

/-- Every row of the year slice lies in the reference year, in a month at
or before the reference month. -/
theorem df_ano_cy_month_le (rows : List (Date × ℚ)) (ref : Date) :
    ∀ p ∈ df_ano_cy rows ref, p.1.month ≤ ref.month := by
  intro p hp
  have hm := (List.mem_filter.mp hp).2
  rw [Bool.and_eq_true, dle_iff, dle_iff] at hm
  obtain ⟨h1, h2⟩ := hm
  dsimp only at h1 h2
  omega

theorem monthMin_le_acc : ∀ (l : List (Date × ℚ)) (acc : Nat), monthMin l acc ≤ acc
  | [], _ => le_refl _
  | _ :: ps, _ => (monthMin_le_acc ps _).trans (min_le_left _ _)

theorem monthMin_le_of_mem : ∀ (l : List (Date × ℚ)) (acc : Nat) (p : Date × ℚ),
    p ∈ l → monthMin l acc ≤ p.1.month
  | _ :: ps, _, p, h => by
    rcases List.mem_cons.mp h with h | h
    · subst h
      exact (monthMin_le_acc ps _).trans (min_le_right _ _)
    · exact monthMin_le_of_mem ps _ p h

theorem le_monthMax_acc : ∀ (l : List (Date × ℚ)) (acc : Nat), acc ≤ monthMax l acc
  | [], _ => le_refl _
  | _ :: ps, _ => (le_max_left _ _).trans (le_monthMax_acc ps _)

theorem le_monthMax_of_mem : ∀ (l : List (Date × ℚ)) (acc : Nat) (p : Date × ℚ),
    p ∈ l → p.1.month ≤ monthMax l acc
  | _ :: ps, _, p, h => by
    rcases List.mem_cons.mp h with h | h
    · subst h
      exact (le_max_right _ _).trans (le_monthMax_acc ps _)
    · exact le_monthMax_of_mem ps _ p h

theorem monthMax_le : ∀ (l : List (Date × ℚ)) (acc B : Nat),
    (∀ p ∈ l, p.1.month ≤ B) → acc ≤ B → monthMax l acc ≤ B
  | [], _, _, _, hacc => hacc
  | p :: ps, _, B, hall, hacc =>
      monthMax_le ps _ B (fun q hq => hall q (List.mem_cons_of_mem _ hq))
        (max_le hacc (hall p (List.mem_cons_self _ _)))

/-- Lookup in a run of consecutive month bins. -/
theorem monthBins_find (rows : List (Date × ℚ)) (m : Nat) :
    ∀ (cnt lo : Nat),
    ((monthBins rows lo cnt).find? (fun p => p.1 == m)).map (·.2) =
      if lo ≤ m ∧ m < lo + cnt then some (monthSum rows m)
      else none := by
  intro cnt
  induction cnt with
  | zero =>
      intro lo
      rw [if_neg (by omega)]
      simp [monthBins]
  | succ n ih =>
      intro lo
      rw [monthBins]
      by_cases h : lo = m
      · subst h
        rw [if_pos (by omega)]
        simp [List.find?]
      · have hb : ((lo, monthSum rows lo).1 == m) = false := by simp [h]
        rw [List.find?, hb, ih (lo + 1)]
        by_cases h2 : lo ≤ m ∧ m < lo + (n + 1)
        · rw [if_pos (by omega), if_pos h2]
        · rw [if_neg (by omega), if_neg h2]

/-- Indexing the image of `List.range`. -/
theorem range_map_getD (n : Nat) (f : Nat → α) (k : Nat) (hk : k < n) (d : α) :
    (((List.range n).map f).getD k d) = f k := by
  rw [List.getD_eq_getElem?_getD, List.getElem?_map, List.getElem?_range hk]
  rfl

/-- C4: for every input series and reference date, the monthly CY window
has exactly 12 entries (Jan..Dec of the reference year); every month
strictly after the reference month is null; and every month at or before it
carries the summed value of its rows within `[Jan 1, reference_date]` —
in particular 0, not null, when that month has no rows. -/
theorem meses_cy_window_shape :
    ∀ (rows : List (Date × ℚ)) (ref : Date),
      (meses_cy rows ref).length = 12 ∧
      (∀ k, k < 12 → ref.month < k + 1 →
        (meses_cy rows ref).getD k (some 0) = none) ∧
      (∀ k, k < 12 → k + 1 ≤ ref.month →
        (meses_cy rows ref).getD k none =
          some (monthSum (df_ano_cy rows ref) (k + 1))) := by
  intro rows ref
  refine ⟨by simp [meses_cy], ?_, ?_⟩
  · intro k hk hfuture
    rw [meses_cy, range_map_getD 12 _ k hk]
    rw [if_pos hfuture]
    cases hrows : df_ano_cy rows ref with
    | nil => simp [resample_MS]
    | cons r rs =>
        rw [resample_MS, monthBins_find]
        rw [if_neg ?_]
        have hlo : monthMin rs r.1.month ≤ monthMax rs r.1.month :=
          (monthMin_le_acc rs _).trans (le_monthMax_acc rs _)
        have hhi : monthMax rs r.1.month ≤ ref.month := by
          refine monthMax_le rs _ _ (fun p hp => ?_) ?_
          · exact df_ano_cy_month_le rows ref p
              (hrows ▸ List.mem_cons_of_mem _ hp)
          · exact df_ano_cy_month_le rows ref r
              (hrows ▸ List.mem_cons_self _ _)
        omega
  · intro k hk hpast
    rw [meses_cy, range_map_getD 12 _ k hk]
    rw [if_neg (by omega)]
    cases hrows : df_ano_cy rows ref with
    | nil => simp [resample_MS, monthSum]
    | cons r rs =>
        rw [resample_MS, monthBins_find]
        have hlo : monthMin rs r.1.month ≤ monthMax rs r.1.month :=
          (monthMin_le_acc rs _).trans (le_monthMax_acc rs _)
        by_cases hin :
            monthMin rs r.1.month ≤ k + 1 ∧
              k + 1 < monthMin rs r.1.month +
                (monthMax rs r.1.month + 1 - monthMin rs r.1.month)
        · rw [if_pos hin]
          rfl
        · rw [if_neg hin]
          have hempty : monthSum (r :: rs) (k + 1) = 0 := by
            unfold monthSum
            rw [List.filter_eq_nil_iff.mpr ?_]
            · rfl
            · intro p hp hmem
              have h1 : monthMin rs r.1.month ≤ p.1.month := by
                rcases List.mem_cons.mp hp with h | h
                · subst h
                  exact monthMin_le_acc rs _
                · exact monthMin_le_of_mem rs _ p h
              have h2 : p.1.month ≤ monthMax rs r.1.month := by
                rcases List.mem_cons.mp hp with h | h
                · subst h
                  exact le_monthMax_acc rs _
                · exact le_monthMax_of_mem rs _ p h
              simp only [beq_iff_eq] at hmem
              omega
          rw [hempty]
          rfl

/-- C4 witness: with a single March row and reference 2025-09-11, October
(entry 9) is null while April (entry 3, no rows) is 0. -/
theorem meses_cy_window_shape_witness :
    (meses_cy [(⟨2025, 3, 5⟩, 10)] ⟨2025, 9, 11⟩).getD 9 (some 0) = none ∧
    (meses_cy [(⟨2025, 3, 5⟩, 10)] ⟨2025, 9, 11⟩).getD 3 none =
      some (monthSum (df_ano_cy [(⟨2025, 3, 5⟩, 10)] ⟨2025, 9, 11⟩) 4) := by
  have h := meses_cy_window_shape [(⟨2025, 3, 5⟩, 10)] ⟨2025, 9, 11⟩
  exact ⟨h.2.1 9 (by omega) (by decide), h.2.2 3 (by omega) (by decide)⟩

/-- Python `round(0, 2)` is 0. -/
theorem pyRound2_zero : pyRound2 0 = 0 := by
  norm_num [pyRound2, roundHalfEven]

/-- The raw percentage change vanishes exactly on equal endpoints. -/
theorem pct_zero_iff (c p : ℚ) (hp : p ≠ 0) :
    (c / p - 1) * 100 = 0 ↔ c = p := by
  rw [mul_eq_zero]
  constructor
  · rintro (h | h)
    · rw [sub_eq_zero] at h
      have := (div_eq_iff hp).mp h
      linarith
    · norm_num at h
  · intro h
    subst h
    left
    rw [div_self hp]
    ring

/-- C1 (amended): `compute_wow` (wbr_utility.py) yields `None` exactly when
an endpoint is missing or the previous value is 0, and otherwise the
two-decimal rounding of `(current - previous) / previous * 100` — in
particular 0 when the endpoints are equal.  `_compute_wow_single` and
`compute_yoy_last_week` (wbr_metrics.py) instead return the percentage
unrounded, and return `None` exactly when the previous value is 0 **or the
computed change is exactly 0** (equal endpoints). -/
theorem percent_change_policy :
    (∀ (col : List (Option ℚ)) (p l : Option ℚ),
      compute_last_prev col = some (p, l) →
      ((compute_wow col = some none) ↔ (p = none ∨ l = none ∨ p = some 0)) ∧
      (∀ pv lv, p = some pv → l = some lv → pv ≠ 0 →
        compute_wow col = some (some (pyRound2 ((lv - pv) / pv * 100)))) ∧
      (∀ pv, p = some pv → l = some pv → pv ≠ 0 →
        compute_wow col = some (some 0))) ∧
    (∀ (series : List (Option ℚ)),
      2 ≤ (series.filterMap id).length →
      (((compute_wow_single series).percent_change = none) ↔
        (prev_valid series = 0 ∨ last_valid series = prev_valid series)) ∧
      (prev_valid series ≠ 0 → last_valid series ≠ prev_valid series →
        (compute_wow_single series).percent_change =
          some ((last_valid series / prev_valid series - 1) * 100))) ∧
    (∀ (cy py : List (Option ℚ)) (cl pl : ℚ),
      (cy.filterMap id).getLast? = some cl →
      (py.filterMap id).getLast? = some pl →
      (((compute_yoy_last_week cy py).percent_change = none) ↔
        (pl = 0 ∨ cl = pl)) ∧
      (pl ≠ 0 → cl ≠ pl →
        (compute_yoy_last_week cy py).percent_change =
          some ((cl / pl - 1) * 100))) := by
  refine ⟨?_, ?_, ?_⟩
  · intro col p l hcl
    refine ⟨?_, ?_, ?_⟩
    · rcases p with _ | pv <;> rcases l with _ | lv <;>
        simp [compute_wow, hcl]
    · rintro pv lv rfl rfl hpv
      simp [compute_wow, hcl, hpv]
    · rintro pv rfl rfl hpv
      simp only [compute_wow, hcl, Option.map_some']
      rw [if_neg hpv]
      have hz : (pv - pv) / pv * 100 = 0 := by
        rw [sub_self, zero_div, zero_mul]
      rw [hz, pyRound2_zero]
  · intro series h2
    have hnl : ¬ (series.filterMap id).length < 2 := by omega
    have hpc : (compute_wow_single series).percent_change =
        (if prev_valid series = 0 then none
         else if (last_valid series / prev_valid series - 1) * 100 = 0 then none
         else some ((last_valid series / prev_valid series - 1) * 100)) := by
      unfold compute_wow_single
      rw [if_neg hnl]
      dsimp only
      by_cases hp : (series.filterMap id).getD
          ((series.filterMap id).length - 2) 0 = 0
      · rw [if_pos hp, if_pos (show prev_valid series = 0 from hp)]
      · rw [if_neg hp, if_neg (show ¬ prev_valid series = 0 from hp)]
        rfl
    rw [hpc]
    by_cases hp : prev_valid series = 0
    · rw [if_pos hp]
      exact ⟨by simp [hp], fun hp' _ => absurd hp hp'⟩
    · rw [if_neg hp]
      constructor
      · by_cases he : last_valid series = prev_valid series
        · rw [if_pos ((pct_zero_iff _ _ hp).mpr he)]
          simp [hp, he]
        · rw [if_neg (fun h => he ((pct_zero_iff _ _ hp).mp h))]
          simp [hp, he]
      · intro _ he
        rw [if_neg (fun h => he ((pct_zero_iff _ _ hp).mp h))]
  · intro cy py cl pl hcl hpl
    have hpc : (compute_yoy_last_week cy py).percent_change =
        (if pl = 0 then none
         else if (cl / pl - 1) * 100 = 0 then none
         else some ((cl / pl - 1) * 100)) := by
      unfold compute_yoy_last_week
      rw [hcl, hpl]
      dsimp only
      by_cases hp : pl = 0
      · rw [if_pos hp, if_pos hp]
      · rw [if_neg hp, if_neg hp]
    rw [hpc]
    by_cases hp : pl = 0
    · rw [if_pos hp]
      exact ⟨by simp [hp], fun hp' _ => absurd hp hp'⟩
    · rw [if_neg hp]
      constructor
      · by_cases he : cl = pl
        · rw [if_pos ((pct_zero_iff _ _ hp).mpr he)]
          simp [hp, he]
        · rw [if_neg (fun h => he ((pct_zero_iff _ _ hp).mp h))]
          simp [hp, he]
      · intro _ he
        rw [if_neg (fun h => he ((pct_zero_iff _ _ hp).mp h))]

/-- C1 witness: concrete two-row series: `compute_wow` rounds the raw
percentage, `_compute_wow_single` returns it unrounded. -/
theorem percent_change_policy_witness :
    compute_wow [some 1, some 3] = some (some (pyRound2 ((3 - 1) / 1 * 100))) ∧
    (compute_wow_single [some 2, some 3]).percent_change =
      some ((last_valid [some 2, some 3] / prev_valid [some 2, some 3] - 1) * 100) := by
  constructor
  · exact (percent_change_policy.1 [some 1, some 3] (some 1) (some 3)
      (by norm_num [compute_last_prev, List.filterMap_cons])).2.1 1 3 rfl rfl
      (by norm_num)
  · refine (percent_change_policy.2.1 [some 2, some 3] ?_).2 ?_ ?_
    · norm_num [List.filterMap_cons]
    · norm_num [prev_valid, List.filterMap_cons, List.getD]
    · norm_num [prev_valid, last_valid, List.filterMap_cons, List.getD]

theorem foldl_min_le_acc : ∀ (l : List (Int × ℚ)) (acc : Int),
    l.foldl (fun a p => min a p.1) acc ≤ acc
  | [], _ => le_refl _
  | p :: ps, acc =>
      (foldl_min_le_acc ps (min acc p.1)).trans (min_le_left _ _)

theorem le_foldl_min : ∀ (l : List (Int × ℚ)) (acc b : Int),
    (∀ p ∈ l, b ≤ p.1) → b ≤ acc →
    b ≤ l.foldl (fun a p => min a p.1) acc
  | [], _, _, _, hacc => hacc
  | p :: ps, _, b, hall, hacc =>
      le_foldl_min ps _ b (fun q hq => hall q (List.mem_cons_of_mem _ hq))
        (le_min hacc (hall p (List.mem_cons_self _ _)))

theorem le_foldl_max_acc : ∀ (l : List (Int × ℚ)) (acc : Int),
    acc ≤ l.foldl (fun a p => max a p.1) acc
  | [], _ => le_refl _
  | p :: ps, acc =>
      (le_max_left _ _).trans (le_foldl_max_acc ps (max acc p.1))

theorem foldl_max_le : ∀ (l : List (Int × ℚ)) (acc b : Int),
    (∀ p ∈ l, p.1 ≤ b) → acc ≤ b →
    l.foldl (fun a p => max a p.1) acc ≤ b
  | [], _, _, _, hacc => hacc
  | p :: ps, _, b, hall, hacc =>
      foldl_max_le ps _ b (fun q hq => hall q (List.mem_cons_of_mem _ hq))
        (max_le hacc (hall p (List.mem_cons_self _ _)))

/-- Every row of the trailing slice is inside the trailing range. -/
theorem trailing_filter_bounds (rows : List (Int × ℚ)) (week_ending : Int)
    (num_weeks : Nat) :
    ∀ p ∈ trailing_filter rows week_ending num_weeks,
      week_ending - ((7 * num_weeks : Int) - 1) ≤ p.1 ∧ p.1 ≤ week_ending := by
  intro p hp
  have h := (List.mem_filter.mp hp).2
  simpa using h

/-- The resampled frame of the trailing slice never holds more than
`num_weeks` bins. -/
theorem weekly_frame_length_le (rows : List (Int × ℚ)) (week_ending : Int)
    (num_weeks : Nat) :
    (weekly_frame rows week_ending num_weeks).length ≤ num_weeks := by
  have hb := trailing_filter_bounds rows week_ending num_weeks
  rw [weekly_frame]
  cases htr : trailing_filter rows week_ending num_weeks with
  | nil => simp [resampleWeeklySum]
  | cons r rs =>
      rw [htr] at hb
      have h1 : week_ending - ((7 * num_weeks : Int) - 1) ≤
          rs.foldl (fun a p => min a p.1) r.1 :=
        le_foldl_min rs r.1 _ (fun p hp => (hb p (List.mem_cons_of_mem _ hp)).1)
          (hb r (List.mem_cons_self _ _)).1
      have h2 : rs.foldl (fun a p => max a p.1) r.1 ≤ week_ending :=
        foldl_max_le rs r.1 _ (fun p hp => (hb p (List.mem_cons_of_mem _ hp)).2)
          (hb r (List.mem_cons_self _ _)).2
      have h3 : rs.foldl (fun a p => min a p.1) r.1 ≤
          rs.foldl (fun a p => max a p.1) r.1 :=
        (foldl_min_le_acc rs r.1).trans (le_foldl_max_acc rs r.1)
      set dmin := rs.foldl (fun a p => min a p.1) r.1
      set dmax := rs.foldl (fun a p => max a p.1) r.1
      have hlen : (resampleWeeklySum week_ending (r :: rs)).length =
          ((binEnd week_ending dmax - binEnd week_ending dmin) / 7).toNat + 1 := by
        simp only [resampleWeeklySum]
        rw [List.length_map, List.length_range]
      rw [hlen]
      have hN1 : 1 ≤ (num_weeks : Int) := by omega
      have hq1 : 0 ≤ (week_ending - dmax) / 7 :=
        Int.ediv_nonneg (by omega) (by norm_num)
      have hq0 : (week_ending - dmin) / 7 ≤ (num_weeks : Int) - 1 := by
        have h7 : week_ending - dmin ≤ 7 * (num_weeks : Int) - 1 := by omega
        calc (week_ending - dmin) / 7 ≤ (7 * (num_weeks : Int) - 1) / 7 :=
              Int.ediv_le_ediv (by norm_num) h7
          _ = (num_weeks : Int) - 1 := by
              have he : 7 * (num_weeks : Int) - 1 = 6 + 7 * ((num_weeks : Int) - 1) := by
                ring
              rw [he, Int.add_mul_ediv_left _ _ (by norm_num : (7 : Int) ≠ 0)]
              norm_num
      have hmono : (week_ending - dmax) / 7 ≤ (week_ending - dmin) / 7 :=
        Int.ediv_le_ediv (by norm_num) (by omega)
      have hdiff : binEnd week_ending dmax - binEnd week_ending dmin =
          7 * ((week_ending - dmin) / 7 - (week_ending - dmax) / 7) := by
        unfold binEnd
        ring
      rw [hdiff, Int.mul_ediv_cancel_left _ (by norm_num : (7 : Int) ≠ 0)]
      omega

theorem padWeeks_length (N : Nat) : ∀ (fuel : Nat) (e : Int)
    (w : List (Int × Option ℚ)), N ≤ w.length + fuel →
    (padWeeks N fuel e w).length = max w.length N := by
  intro fuel
  induction fuel with
  | zero =>
      intro e w h
      simp only [padWeeks]
      exact (Nat.max_eq_left (by omega)).symm
  | succ fuel ih =>
      intro e w h
      rw [padWeeks]
      by_cases hlen : w.length < N
      · rw [if_pos hlen, ih (e - 7) ((e - 7, none) :: w) (by simp; omega)]
        simp only [List.length_cons]
        rw [Nat.max_eq_right (by omega), Nat.max_eq_right (by omega)]
      · rw [if_neg hlen]
        exact (Nat.max_eq_left (by omega)).symm

theorem padWeeks_countP (N : Nat) : ∀ (fuel : Nat) (e : Int)
    (w : List (Int × Option ℚ)), N ≤ w.length + fuel →
    (padWeeks N fuel e w).countP (fun r => r.2 == none) =
      w.countP (fun r => r.2 == none) + (N - w.length) := by
  intro fuel
  induction fuel with
  | zero =>
      intro e w h
      simp only [padWeeks]
      omega
  | succ fuel ih =>
      intro e w h
      rw [padWeeks]
      by_cases hlen : w.length < N
      · rw [if_pos hlen, ih (e - 7) ((e - 7, none) :: w) (by simp; omega)]
        rw [List.countP_cons]
        simp only [List.length_cons]
        norm_num
        omega
      · rw [if_neg hlen]
        omega

/-- Every resampled bin carries an actual (non-NA) aggregate. -/
theorem resample_values_some (week_ending : Int) (rows : List (Int × ℚ)) :
    ∀ r ∈ resampleWeeklySum week_ending rows, r.2.isSome = true := by
  intro r hr
  cases rows with
  | nil => simp [resampleWeeklySum] at hr
  | cons q qs =>
      simp only [resampleWeeklySum, List.mem_map] at hr
      obtain ⟨k, -, hk⟩ := hr
      rw [← hk]
      rfl

/-- The resampled frame holds no NA values, so its none-count is zero. -/
theorem weekly_frame_countP_zero (rows : List (Int × ℚ)) (week_ending : Int)
    (num_weeks : Nat) :
    (weekly_frame rows week_ending num_weeks).countP (fun r => r.2 == none) = 0 := by
  rw [List.countP_eq_zero]
  intro r hr
  have h := resample_values_some week_ending _ r hr
  simp only [beq_iff_eq]
  cases hv : r.2 with
  | none => rw [hv] at h; simp at h
  | some v => simp

/-- C5: for every daily series, reference date and `trailing_weeks = N`,
the weekly CY window of `create_trailing_six_weeks` has exactly `N` rows in
oldest-to-newest order; the resampled data rows all carry actual values,
and the remaining `N - (data bins)` rows — present exactly when fewer than
`N * 7` days of history fall in the trailing range — are null padding. -/
theorem trailing_weeks_shape :
    ∀ (rows : List (Int × ℚ)) (week_ending : Int) (num_weeks : Nat),
      (create_trailing_six_weeks rows week_ending num_weeks).length = num_weeks ∧
      List.Sorted (fun a b => a.1 ≤ b.1)
        (create_trailing_six_weeks rows week_ending num_weeks) ∧
      (∀ r ∈ weekly_frame rows week_ending num_weeks, r.2.isSome = true) ∧
      (create_trailing_six_weeks rows week_ending num_weeks).countP
          (fun r => r.2 == none) =
        num_weeks - (weekly_frame rows week_ending num_weeks).length := by
  intro rows we N
  have hwlen : (weekly_frame rows we N).length ≤ N := weekly_frame_length_le rows we N
  have hplen : (padded_frame rows we N).length = N := by
    rw [padded_frame, padWeeks_length N N _ _ (by omega)]
    omega
  have hslen : ((padded_frame rows we N).insertionSort
      (fun a b => a.1 ≤ b.1)).length = (padded_frame rows we N).length :=
    (List.perm_insertionSort _ _).length_eq
  have hdrop : create_trailing_six_weeks rows we N =
      (padded_frame rows we N).insertionSort (fun a b => a.1 ≤ b.1) := by
    rw [create_trailing_six_weeks]
    rw [hslen, hplen]
    simp
  refine ⟨?_, ?_, resample_values_some we _, ?_⟩
  · rw [hdrop, hslen, hplen]
  · rw [hdrop]
    exact List.sorted_insertionSort _ _
  · rw [hdrop]
    rw [(List.perm_insertionSort (fun a b => a.1 ≤ b.1)
      (padded_frame rows we N)).countP_eq]
    rw [padded_frame, padWeeks_countP N N _ _ (by omega)]
    rw [weekly_frame_countP_zero]
    omega

/-- C5 witness: two data days, reference day 10, six weeks: exactly six
rows, of which the four beyond the data are null padding. -/
theorem trailing_weeks_shape_witness :
    (create_trailing_six_weeks [((3 : Int), (2 : ℚ)), (10, 7)] 10 6).length = 6 ∧
    (create_trailing_six_weeks [((3 : Int), (2 : ℚ)), (10, 7)] 10 6).countP
        (fun r => r.2 == none) =
      6 - (weekly_frame [((3 : Int), (2 : ℚ)), (10, 7)] 10 6).length := by
  have h := trailing_weeks_shape [((3 : Int), (2 : ℚ)), (10, 7)] 10 6
  exact ⟨h.1, h.2.2.2⟩

/-- Dropping duplicate dates only removes rows. -/
theorem drop_duplicates_sublist : ∀ (l : List (Int × ℚ)),
    (drop_duplicates_by_date l).Sublist l
  | [] => by
      rw [drop_duplicates_by_date]
  | p :: rest => by
      rw [drop_duplicates_by_date]
      exact ((drop_duplicates_sublist
        (rest.filter (fun q => q.1 != p.1))).trans
          (List.filter_sublist rest)).cons₂ p
termination_by l => l.length
decreasing_by
  simp only [List.length_cons]
  exact Nat.lt_succ_of_le (List.length_filter_le _ _)

/-- After dropping duplicate dates, the dates are pairwise distinct. -/
theorem drop_duplicates_nodup : ∀ (l : List (Int × ℚ)),
    ((drop_duplicates_by_date l).map (·.1)).Nodup
  | [] => by
      rw [drop_duplicates_by_date]
      simp
  | p :: rest => by
      rw [drop_duplicates_by_date, List.map_cons, List.nodup_cons]
      refine ⟨?_, drop_duplicates_nodup _⟩
      intro hmem
      obtain ⟨q, hq, hq1⟩ := List.mem_map.mp hmem
      have hq' : q ∈ rest.filter (fun r => r.1 != p.1) :=
        (drop_duplicates_sublist _).subset hq
      have hne := (List.mem_filter.mp hq').2
      rw [hq1] at hne
      simp at hne
termination_by l => l.length
decreasing_by
  simp only [List.length_cons]
  exact Nat.lt_succ_of_le (List.length_filter_le _ _)

/-- Partition of a metric total by one date. -/
theorem sum_filter_split (rows : List (Int × ℚ)) (d : Int) :
    ((rows.filter (fun r => r.1 == d)).map (·.2)).sum +
      ((rows.filter (fun r => r.1 != d)).map (·.2)).sum =
    (rows.map (·.2)).sum := by
  induction rows with
  | nil => simp
  | cons r rs ih =>
      by_cases h : r.1 = d
      · rw [List.filter_cons_of_pos (by simp [h]),
          List.filter_cons_of_neg (by simp [h])]
        simp only [List.map_cons, List.sum_cons]
        rw [← ih]
        ring
      · rw [List.filter_cons_of_neg (by simp [h]),
          List.filter_cons_of_pos (by simp [h])]
        simp only [List.map_cons, List.sum_cons]
        rw [← ih]
        ring

/-- Summing the date-wise totals over any duplicate-free list containing
all the dates recovers the metric total. -/
theorem sum_fiberwise : ∀ (ds : List Int) (rows : List (Int × ℚ)),
    ds.Nodup → (∀ r ∈ rows, r.1 ∈ ds) →
    (ds.map (fun d => sumAtDate rows d)).sum = (rows.map (·.2)).sum := by
  intro ds
  induction ds with
  | nil =>
      intro rows _ hall
      cases rows with
      | nil => simp
      | cons r rs => exact absurd (hall r (List.mem_cons_self _ _)) (List.not_mem_nil _)
  | cons d ds ih =>
      intro rows hnd hall
      rw [List.map_cons, List.sum_cons]
      have hstep : ∀ d' ∈ ds,
          sumAtDate rows d' = sumAtDate (rows.filter (fun r => r.1 != d)) d' := by
        intro d' hd'
        have hdd : d' ≠ d := fun he => (List.nodup_cons.mp hnd).1 (he ▸ hd')
        unfold sumAtDate
        rw [List.filter_filter]
        congr 1
        congr 1
        apply List.filter_congr
        intro r _
        by_cases h : r.1 = d'
        · simp [h, hdd]
        · simp [h]
      rw [List.map_congr_left hstep]
      rw [ih (rows.filter (fun r => r.1 != d)) (List.nodup_cons.mp hnd).2 ?memb]
      case memb =>
        intro r hr
        have h1 := (List.mem_filter.mp hr).1
        have h2 := (List.mem_filter.mp hr).2
        have h3 := hall r h1
        rcases List.mem_cons.mp h3 with h | h
        · rw [h] at h2
          simp at h2
        · exact h
      exact sum_filter_split rows d

/-- The groupby-sum aggregation preserves the metric total. -/
theorem groupby_sum_preserves (rows : List (Int × ℚ)) :
    ((groupby_sum_date rows).map (·.2)).sum = (rows.map (·.2)).sum := by
  unfold groupby_sum_date
  rw [List.map_map]
  have hmap : ((·.2) ∘ fun d => (d, sumAtDate rows d)) =
      fun d => sumAtDate rows d := rfl
  rw [hmap]
  rw [List.Perm.sum_eq ((List.perm_insertionSort (· ≤ ·)
    (rows.map (·.1)).dedup).map (fun d => sumAtDate rows d))]
  exact sum_fiberwise _ rows (List.nodup_dedup _)
    (fun r hr => List.mem_dedup.mpr (List.mem_map_of_mem _ hr))

/-- C8 (amended): `prepare_data_for_wbr` sorts by date and drops
duplicate-date rows keeping only the first of each date, so the prepared
series has unique sorted dates but does not preserve metric totals when
duplicates disagree; the duplicate handling of `compute_trailing_weeks`
(`dedup_by_sum`) instead aggregates duplicate dates by summing, yielding
unique sorted dates and preserving every metric total. -/
theorem prepare_and_groupby_dedup :
    ∀ (rows : List (Int × ℚ)),
      List.Sorted (· ≤ ·) ((prepare_data_for_wbr rows).map (·.1)) ∧
      ((prepare_data_for_wbr rows).map (·.1)).Nodup ∧
      List.Sorted (· ≤ ·) ((dedup_by_sum rows).map (·.1)) ∧
      ((dedup_by_sum rows).map (·.1)).Nodup ∧
      ((dedup_by_sum rows).map (·.2)).sum = (rows.map (·.2)).sum := by
  intro rows
  refine ⟨?_, drop_duplicates_nodup _, ?_, ?_, ?_⟩
  · have hs : List.Sorted (fun a b => a.1 ≤ b.1)
        (sort_values_by_date rows) := List.sorted_insertionSort _ _
    have hsub := drop_duplicates_sublist (sort_values_by_date rows)
    have hdd : List.Sorted (fun a b => a.1 ≤ b.1)
        (prepare_data_for_wbr rows) := List.Pairwise.sublist hsub hs
    exact List.pairwise_map.mpr hdd
  · have hs : List.Sorted (fun a b => a.1 ≤ b.1) (dedup_by_sum rows) := by
      unfold dedup_by_sum sort_values_by_date
      exact List.sorted_insertionSort _ _
    exact List.pairwise_map.mpr hs
  · unfold dedup_by_sum sort_values_by_date
    have hperm := List.perm_insertionSort (fun a b : Int × ℚ => a.1 ≤ b.1)
      (if (rows.map (·.1)).Nodup then rows else groupby_sum_date rows)
    rw [List.Perm.nodup_iff (hperm.map (·.1))]
    by_cases h : (rows.map (·.1)).Nodup
    · rw [if_pos h]
      exact h
    · rw [if_neg h]
      unfold groupby_sum_date
      rw [List.map_map]
      have hmap : List.map ((·.1) ∘ fun d => (d, sumAtDate rows d))
          (((rows.map (·.1)).dedup).insertionSort (· ≤ ·)) =
          ((rows.map (·.1)).dedup).insertionSort (· ≤ ·) := by
        apply List.map_id''
        intro x
        rfl
      rw [hmap]
      rw [List.Perm.nodup_iff (List.perm_insertionSort _ _)]
      exact List.nodup_dedup _
  · unfold dedup_by_sum sort_values_by_date
    have hperm := List.perm_insertionSort (fun a b : Int × ℚ => a.1 ≤ b.1)
      (if (rows.map (·.1)).Nodup then rows else groupby_sum_date rows)
    rw [List.Perm.sum_eq (hperm.map (·.2))]
    by_cases h : (rows.map (·.1)).Nodup
    · rw [if_pos h]
    · rw [if_neg h]
      exact groupby_sum_preserves rows
